import Mathlib

/-!
Verification of the PulseApp client pipeline (food/barcode scanner screens).

Shallow embedding of the JavaScript source in `src/screens/FoodScannerScreen.js`
and `src/screens/BarcodeScannerNative.js` (two screen variants separated by a
document marker in that file).  Effectful collaborators (the HTTP server, the
image manipulator, AsyncStorage, `Date.now()`) are modelled as explicit
parameters or explicit state; JavaScript falsiness on strings is modelled with
`Option String` where `none` stands for `undefined`/`null` and the empty string
is falsy as in JS.
-/

set_option maxRecDepth 4000

namespace PulseApp

/-! ## JavaScript-style helpers -/

/-- JS `a || d` for a string expression `a` (absent or empty string is falsy). -/
def strOr : Option String → String → String
  | some t, d => if t = "" then d else t
  | none, d => d

/-- Truthiness of a JS string-valued field: present and non-empty. -/
def truthyS : Option String → Bool
  | some s => s ≠ ""
  | none => false

/-- JS `a || b` where both sides are string-or-absent values. -/
def jsOrS (a b : Option String) : Option String :=
  if truthyS a then a else b

/-- ASCII whitespace recognised by JS `\s` / `trim` (restricted to the ASCII
whitespace characters; the source strings involved are ASCII). -/
def isWsChar (c : Char) : Bool :=
  c = ' ' || c = '\t' || c = '\n' || c = '\r' || c = '\x0b' || c = '\x0c'

/-- JS `String.prototype.trim` on a character list. -/
def trimWs (cs : List Char) : List Char :=
  ((cs.dropWhile isWsChar).reverse.dropWhile isWsChar).reverse

/-- Lower-casing, modelling JS `toLowerCase` (ASCII range, which covers every
pattern the classifier tests for). -/
def lowerStr (s : String) : String :=
  String.mk (s.data.map Char.toLower)

/-! ## Upload client

`FoodScannerScreen.uploadToBackend` (and the identical control flow of the
first `BarcodeScannerNative.uploadImage`): build a multipart body under a
candidate field name, POST, and on a non-2xx response retry with the next
candidate field name, remembering the last failing status/body.

The server is a function from the form field name used to the HTTP response
observed.  A response carries its status, its raw body text, and whether
`resp.json()` succeeds on it (`jsonOk`); the decoded JSON document is
represented by its source text. -/

structure Resp where
  status : Nat
  text : String
  jsonOk : Bool
deriving DecidableEq

/-- Fetch `resp.ok`: status in the 2xx range. -/
def respOk (r : Resp) : Bool := decide (200 ≤ r.status ∧ r.status < 300)

/-- Parsed response body: either the decoded JSON document or the
`\x7b rawText: ... \x7d` fallback object built from the raw body text. -/
inductive Body where
  | parsedJson (text : String)
  | rawText (text : String)
deriving DecidableEq

/-- Response parsing: `try parsed = await resp.json()` with the rawText fallback on a decode failure. -/
def parseBody (r : Resp) : Body :=
  if r.jsonOk then .parsedJson r.text else .rawText r.text

/-- Outcome of the upload: success records the field name that won together
with the status and parsed body; exhaustion of all candidate field names
throws the last recorded error (status and body text of the last non-2xx
response, which the source formats into the thrown message). -/
inductive UploadOutcome where
  | success (field : String) (status : Nat) (body : Body)
  | serverError (lastErr : Option (Nat × String))
deriving DecidableEq

/-- An upload run: the field names actually POSTed, in order, and the final
outcome. -/
structure UploadRun where
  attempts : List String
  outcome : UploadOutcome
deriving DecidableEq

/-- The `for (const fieldName of fieldNamesToTry)` loop of
`uploadToBackend` / `uploadImage`: POST under each candidate field name until
a 2xx response wins; a non-2xx response records `Status ...: text` and moves
on; exhaustion throws the last error. -/
def tryFields (server : String → Resp) : List String → Option (Nat × String) → UploadRun
  | [], lastErr => { attempts := [], outcome := .serverError lastErr }
  | f :: rest, _lastErr =>
    let r := server f
    if respOk r then
      { attempts := [f], outcome := .success f r.status (parseBody r) }
    else
      let k := tryFields server rest (some (r.status, r.text))
      { attempts := f :: k.attempts, outcome := k.outcome }

/-- The full upload: `const fieldNamesToTry = ["file", "image"]` fed to the attempt loop. -/
def uploadToBackend (server : String → Resp) : UploadRun :=
  tryFields server ["file", "image"] none

/-! ## History store, capped variant

First `BarcodeScannerNative` variant: `saveResult` prepends the new result
and keeps the first 50 entries; `loadSaved` parses the stored document as-is. -/

/-- The result object saved by the first variant:
`\x7b method: "upload", field, status, body, when \x7d`. -/
structure OutRec1 where
  field : String
  status : Nat
  body : Body
  whenMs : Int
deriving DecidableEq

/-- Capped save: `const newArr = [item, ...savedFoods].slice(0, 50)`. -/
def saveResult1 (item : OutRec1) (saved : List OutRec1) : List OutRec1 :=
  (item :: saved).take 50

/-- A sequence of saves into an initially empty store. -/
def saveAll1 (items : List OutRec1) : List OutRec1 :=
  items.foldl (fun st it => saveResult1 it st) []

/-- Plain load `loadSaved`: `JSON.parse` of the stored document, no pruning. -/
def load1 (stored : List OutRec1) : List OutRec1 := stored

/-! ## History store, time-windowed variant

Second `BarcodeScannerNative` variant: records older than 24 hours are
filtered out on load (and written back when anything was removed) and on
save; the new record is prepended and the list capped at 50.
ISO timestamp strings are modelled by their millisecond epoch value,
`none` modelling an absent or empty `when` field. -/

/-- The prune window: `const TWENTY_FOUR_HOURS = 24 * 60 * 60 * 1000`. -/
def twentyFourHoursMs : Int := 24 * 60 * 60 * 1000

structure ScanProduct where
  product_name : Option String
  name : Option String
  image_url : Option String
  barcode : Option String
deriving DecidableEq

structure ScanBody where
  barcode : Option String
  product : Option ScanProduct
deriving DecidableEq

def emptyScanProduct : ScanProduct :=
  { product_name := none, name := none, image_url := none, barcode := none }

def emptyScanBody : ScanBody := { barcode := none, product := none }

/-- The upload result handed to the windowed `saveResult`. -/
structure OutRec2 where
  whenMs : Option Int
  body : Option ScanBody
deriving DecidableEq

/-- The preview record persisted in the Saved Foods list. -/
structure FoodItem where
  whenMs : Option Int
  barcode : Option String
  title : String
  image_url : Option String
  body : ScanBody
deriving DecidableEq

/-- The preview object built at the top of the windowed `saveResult`:
`when: item.when || new Date().toISOString()`, `barcode: b.barcode ||
p.barcode || null`, `title: p.product_name || p.name || (b.barcode ? ... :
"Product")`, `image_url: p.image_url || null`, `body: b`. -/
def mkPreview (nowMs : Int) (item : OutRec2) : FoodItem :=
  let b := item.body.getD emptyScanBody
  let p := b.product.getD emptyScanProduct
  { whenMs := some (item.whenMs.getD nowMs)
  , barcode := jsOrS b.barcode (jsOrS p.barcode none)
  , title := strOr p.product_name (strOr p.name
      (if truthyS b.barcode then "Barcode " ++ b.barcode.getD "" else "Product"))
  , image_url := jsOrS p.image_url none
  , body := b }

/-- Body of the `filterRecentFoods` predicate: reject a record with no `when`,
otherwise keep it iff it is strictly less than 24 hours old. -/
def isRecent (nowMs : Int) (item : FoodItem) : Bool :=
  match item.whenMs with
  | none => false
  | some t => decide (nowMs - t < twentyFourHoursMs)

/-- Prune filter `filterRecentFoods`. -/
def filterRecentFoods (nowMs : Int) (foods : List FoodItem) : List FoodItem :=
  foods.filter (isRecent nowMs)

/-- Windowed `saveResult`: prepend the preview to the pruned previous list and
cap at 50. -/
def saveResult2 (nowMs : Int) (item : OutRec2) (saved : List FoodItem) : List FoodItem :=
  (mkPreview nowMs item :: filterRecentFoods nowMs saved).take 50

/-- A sequence of windowed saves (all at the same clock reading) into an
initially empty store. -/
def saveAll2 (nowMs : Int) (items : List OutRec2) : List FoodItem :=
  items.foldl (fun st it => saveResult2 nowMs it st) []

/-- Result of the load effect: the list handed to the UI, the list left in
storage, and whether a write-back happened. -/
structure LoadOut where
  returned : List FoodItem
  persisted : List FoodItem
  wrote : Bool
deriving DecidableEq

/-- The windowed load effect: filter the stored list, write the filtered list
back iff its length differs from the stored length, and return the filtered
list. -/
def loadEffect (nowMs : Int) (stored : List FoodItem) : LoadOut :=
  if (filterRecentFoods nowMs stored).length = stored.length then
    { returned := filterRecentFoods nowMs stored, persisted := stored, wrote := false }
  else
    { returned := filterRecentFoods nowMs stored
    , persisted := filterRecentFoods nowMs stored, wrote := true }

/-! ## Vegetarian-status classifier

`detectVegStatus` of the windowed `BarcodeScannerNative` variant: lower-case
the concatenation of the harmful-ingredients analysis, the labels and the
product name, then test the non-vegetarian regex first and the vegetarian
regex second.  The two regexes are alternations of literal patterns plus
`non[-\s]?...` (optional separator) and `veg\b` (word boundary); they are
embedded alternative by alternative below. -/

/-- The fields of the server product record read by the classifier. -/
structure Product where
  harmful_ingredients_analysis : Option String
  labels : Option String
  product_name : Option String
  name : Option String
deriving DecidableEq

/-- Match a literal pattern at the head of the text, returning the rest. -/
def dropLit : List Char → List Char → Option (List Char)
  | [], s => some s
  | _ :: _, [] => none
  | p :: ps, c :: cs => if c = p then dropLit ps cs else none

/-- Does the literal pattern occur at the head of the text? -/
def litHere (pat s : List Char) : Bool := (dropLit pat s).isSome

/-- Pattern `non[-\s]?` followed by `tail`, matched at the head of the text. -/
def nonSepHere (tail s : List Char) : Bool :=
  match dropLit ['n', 'o', 'n'] s with
  | none => false
  | some rest =>
    litHere tail rest ||
    (match rest with
     | [] => false
     | c :: cs => (c = '-' || isWsChar c) && litHere tail cs)

/-- JS `\w`: ASCII letter, digit or underscore. -/
def isWordChar (c : Char) : Bool := c.isAlphanum || c = '_'

/-- Pattern `veg\b` matched at the head of the text: the literal `veg` followed by
a word boundary (end of text or a non-word character). -/
def vegWordHere (s : List Char) : Bool :=
  match dropLit ['v', 'e', 'g'] s with
  | none => false
  | some [] => true
  | some (c :: _) => !isWordChar c

/-- One position of the non-vegetarian regex
`non[-\s]?veg|non[-\s]?vegetarian|nonveg|non vegetarian|contains meat|contains
chicken|contains egg|contains fish|contains mutton` (the `/i` flag is
absorbed by the prior lower-casing of the text). -/
def matchNonVegHere (s : List Char) : Bool :=
  nonSepHere "veg".toList s ||
  nonSepHere "vegetarian".toList s ||
  litHere "nonveg".toList s ||
  litHere "non vegetarian".toList s ||
  litHere "contains meat".toList s ||
  litHere "contains chicken".toList s ||
  litHere "contains egg".toList s ||
  litHere "contains fish".toList s ||
  litHere "contains mutton".toList s

/-- One position of the vegetarian regex
`vegetarian|veg\b|pure veg|suitable for vegetarians|veg\/veg|vegan`. -/
def matchVegHere (s : List Char) : Bool :=
  litHere "vegetarian".toList s ||
  vegWordHere s ||
  litHere "pure veg".toList s ||
  litHere "suitable for vegetarians".toList s ||
  litHere "veg/veg".toList s ||
  litHere "vegan".toList s

/-- An unanchored regex test: some position of the text matches. -/
def anySuffix (p : List Char → Bool) : List Char → Bool
  | [] => p []
  | c :: cs => p (c :: cs) || anySuffix p cs

def testNonVeg (s : String) : Bool := anySuffix matchNonVegHere s.toList

def testVeg (s : String) : Bool := anySuffix matchVegHere s.toList

/-- The combined lower-cased text the classifier inspects:
`(analysis + " " + labels + " " + name).toLowerCase()` with
`analysis = (product.harmful_ingredients_analysis || "")`,
`labels = (product.labels || "")`,
`name = (product.product_name || product.name || "")`. -/
def combinedOf (p : Product) : String :=
  lowerStr (strOr p.harmful_ingredients_analysis "" ++ " " ++ strOr p.labels "" ++ " "
    ++ strOr p.product_name (strOr p.name ""))

/-- Classifier `detectVegStatus`. -/
def detectVegStatus (p : Product) : String :=
  if testNonVeg (combinedOf p) then "non-veg"
  else if testVeg (combinedOf p) then "veg"
  else "unknown"

/-! ## Nutrition rows

`getNutritionRow` inside `renderProduct` of the windowed variant, and the
fixed list of recognised nutrient keys it is applied to.  A JSON nutrition
value is null/absent, a number, or a string; JS `Number(...)` coercion of a
string is modelled for the decimal-literal fragment of the JS grammar
(optional sign, digits, optional fraction; a purely-whitespace string
coerces to 0 as in JS). -/

inductive NVal where
  | vnull
  | num (q : Rat)
  | str (s : String)
deriving DecidableEq

/-- Property access `nutrition[key]`, with absent keys reading as null. -/
def jsLookup (o : List (String × NVal)) (k : String) : NVal :=
  match o.lookup k with
  | some v => v
  | none => .vnull

def digitsVal (cs : List Char) : Nat :=
  cs.foldl (fun a c => a * 10 + (c.toNat - 48)) 0

/-- JS `Number(string)` on decimal literals; `none` models NaN. -/
def jsStrToNum (s : String) : Option Rat :=
  match trimWs s.toList with
  | [] => some 0
  | cs =>
    let sgn : Int := match cs with
      | '-' :: _ => -1
      | _ => 1
    let body := match cs with
      | '-' :: r => r
      | '+' :: r => r
      | r => r
    let ip := body.takeWhile Char.isDigit
    match body.dropWhile Char.isDigit with
    | [] => if ip.isEmpty then none else some ((sgn : Rat) * (digitsVal ip : Rat))
    | '.' :: fr =>
      if fr.all Char.isDigit && !(ip.isEmpty && fr.isEmpty) then
        some ((sgn : Rat) *
          ((digitsVal ip : Rat) + (digitsVal fr : Rat) / ((10 : Rat) ^ fr.length)))
      else none
    | _ => none

/-- JS `Number(v)` for a non-null nutrition value; `none` models NaN. -/
def numberOf : NVal → Option Rat
  | .vnull => some 0
  | .num q => some q
  | .str s => jsStrToNum s

/-- Display of an integral or rational number (the integral case is the one
the source data exercises; JS prints integral numbers the same way). -/
def ratDisplay (q : Rat) : String :=
  if q.den = 1 then toString q.num else toString q.num ++ "/" ++ toString q.den

/-- JS `String(v)`. -/
def displayStr : NVal → String
  | .vnull => "null"
  | .num q => ratDisplay q
  | .str s => s

/-- Row builder `getNutritionRow(label, key)`: no row for null/undefined, for a value
coercing to the number 0, or for a non-numeric value that is blank after
trimming; otherwise a row pairing the label with `String(v)`. -/
def getNutritionRow (nutrition : List (String × NVal)) (label key : String) :
    Option (String × String) :=
  match jsLookup nutrition key with
  | .vnull => none
  | v =>
    match numberOf v with
    | some q => if q = 0 then none else some (label, displayStr v)
    | none => if trimWs (displayStr v).toList = [] then none else some (label, displayStr v)

/-- The fixed label/key list `renderProduct` feeds to `getNutritionRow`. -/
def nutritionKeyRows : List (String × String) :=
  [("Energy (kcal)", "energy_kcal"), ("Calories", "calories"),
   ("Carbs (g)", "carbohydrates"), ("Fat (g)", "fat"),
   ("Saturated fat (g)", "saturated_fat"), ("Protein (g)", "proteins"),
   ("Sugar (g)", "sugars"), ("Fiber (g)", "fiber"), ("Salt (g)", "salt"),
   ("Sodium (mg)", "sodium")]

/-- The rendered nutrition rows: the rows `getNutritionRow` keeps, in the
fixed key order. -/
def nutritionRows (nutrition : List (String × NVal)) : List (String × String) :=
  nutritionKeyRows.filterMap (fun lk => getNutritionRow nutrition lk.1 lk.2)

/-! ## Image preparation

`prepareImage` of `FoodScannerScreen` (and the first barcode variant), and
the guarded `prepareImage` of the windowed variant.  The image manipulator is
an explicit parameter: a function from the input URI to either a manipulated
image or a thrown error. -/

structure ManipImage where
  uri : String
  width : Option Nat
  height : Option Nat
deriving DecidableEq

/-- Fallback preparation `prepareImage`: return the manipulation result, or on any thrown error
fall back to the original URI wrapped as an image record. -/
def prepareImage (manip : String → Except String ManipImage) (uri : String) : ManipImage :=
  match manip uri with
  | .ok r => r
  | .error _ => { uri := uri, width := none, height := none }

/-- Windowed-variant `prepareImage`: additionally rejects a falsy URI up
front (`if (!uri || typeof uri !== "string") return null`). -/
def prepareImage3 (manip : String → Except String ManipImage) (uri : String) :
    Option ManipImage :=
  if uri = "" then none
  else some (match manip uri with
    | .ok r => r
    | .error _ => { uri := uri, width := none, height := none })

/-! ## Picker result normalization

`normalizePickerResult` of the windowed variant: a picker backend returns
either a record with a non-empty `assets` list or a single record with a
`uri`; the adapter builds one image record from the first asset, defaulting
file name and MIME type from the URI. -/

structure Asset where
  uri : Option String
  width : Option Nat
  height : Option Nat
  fileName : Option String
  mimeType : Option String
deriving DecidableEq

structure PickerRes where
  assets : Option (List Asset)
  uri : Option String
  width : Option Nat
  height : Option Nat
deriving DecidableEq

structure CapturedImage where
  uri : Option String
  width : Option Nat
  height : Option Nat
  fileName : Option String
  mimeType : Option String
deriving DecidableEq

/-- JS `String.prototype.split(sep)` on a character list. -/
def splitChar (sep : Char) : List Char → List (List Char)
  | [] => [[]]
  | c :: cs =>
    if c = sep then [] :: splitChar sep cs
    else
      match splitChar sep cs with
      | [] => [[c]]
      | g :: gs => (c :: g) :: gs

/-- Last path component: `uri.split("/").pop()`. -/
def splitPop (s : String) : String :=
  String.mk ((splitChar '/' s.data).getLastD [])

/-- JS `String.prototype.endsWith`. -/
def strEndsWith (s pat : String) : Bool :=
  pat.data.reverse.isPrefixOf s.data.reverse

/-- The image record built from the first asset:
`uri/width/height` copied, `fileName: a.fileName || (a.uri ?
a.uri.split("/").pop() : undefined)`, `type: a.type ||
(a.uri && a.uri.endsWith(".png") ? "image/png" : "image/jpeg")`. -/
def capturedFromAsset (a : Asset) : CapturedImage :=
  { uri := a.uri
  , width := a.width
  , height := a.height
  , fileName :=
      if truthyS a.fileName then a.fileName
      else if truthyS a.uri then some (splitPop (a.uri.getD "")) else none
  , mimeType :=
      if truthyS a.mimeType then a.mimeType
      else some (if truthyS a.uri && strEndsWith (a.uri.getD "") ".png"
                 then "image/png" else "image/jpeg") }

/-- Adapter `normalizePickerResult`. -/
def normalizePickerResult (res : Option PickerRes) : Option CapturedImage :=
  match res with
  | none => none
  | some r =>
    match r.assets with
    | some (a :: _) => some (capturedFromAsset a)
    | _ =>
      if truthyS r.uri then
        some { uri := r.uri, width := r.width, height := r.height
             , fileName := none, mimeType := none }
      else none

/-! ## Concrete instances used by witnesses and the counterexample -/

/-- A server rejecting field name "file" with 415 and accepting "image". -/
def server415 : String → Resp :=
  fun f => if f = "file" then ⟨415, "unsupported media type", false⟩
           else ⟨200, "okbody", true⟩

/-- A server answering 200 with a body that is not valid JSON. -/
def serverRaw : String → Resp := fun _ => ⟨200, "OK", false⟩

/-- A server rejecting every field name with 500. -/
def server500 : String → Resp :=
  fun f => if f = "file" then ⟨500, "err-file", false⟩ else ⟨500, "err-image", false⟩

/-- An image manipulator that always throws. -/
def manipFail : String → Except String ManipImage := fun _ => .error "manipulation failed"

/-- A nutrition object with a zero and a non-zero reading. -/
def sampleNutrition : List (String × NVal) := [("sugars", .num 0), ("proteins", .num 5)]

def wOut1 : OutRec1 := ⟨"file", 200, .rawText "x", 0⟩

def wOut2 : OutRec2 := ⟨some 0, none⟩

/-- A clock reading 25 hours past the epoch. -/
def nowStale : Int := 25 * 60 * 60 * 1000

/-- An upload result carrying a timestamp 25 hours older than `nowStale`. -/
def oldOut : OutRec2 := ⟨some 0, none⟩

/-- A stored record 25 hours older than `nowStale`. -/
def staleItem : FoodItem := ⟨some 0, none, "Product", none, emptyScanBody⟩

/-- A stored record with no `when` value. -/
def noWhenItem : FoodItem := ⟨none, none, "X", none, emptyScanBody⟩

def c10Out : OutRec2 := ⟨none, none⟩

def assetSample : Asset := ⟨some "a/b.png", none, none, none, none⟩

def pickerSample : PickerRes := ⟨some [assetSample], none, none, none⟩

def prodPureVeg : Product := ⟨some "Pure Veg", none, none, none⟩

/-! ## Helper lemmas -/

theorem aux_take_take_append {α : Type} (xs ys : List α) (m n : Nat) (h : m ≤ n) :
    (xs ++ ys.take n).take m = (xs ++ ys).take m := by
  induction xs generalizing m with
  | nil =>
    simp only [List.nil_append, List.take_take]
    congr 1
    omega
  | cons x xs ih =>
    cases m with
    | zero => simp
    | succ m =>
      simp only [List.cons_append, List.take_succ_cons]
      rw [ih m (by omega)]

theorem aux_foldl_cap {α : Type} (l acc : List α) (h : acc.length ≤ 50) :
    l.foldl (fun st it => (it :: st).take 50) acc = (l.reverse ++ acc).take 50 := by
  induction l generalizing acc with
  | nil =>
    simp [List.take_of_length_le h]
  | cons x xs ih =>
    rw [List.foldl_cons, ih ((x :: acc).take 50) (by simp),
      aux_take_take_append _ _ 50 50 (Nat.le_refl 50)]
    simp [List.append_assoc]

theorem aux_isRecent_preview (now : Int) (o : OutRec2)
    (h : o.whenMs = some now ∨ o.whenMs = none) :
    isRecent now (mkPreview now o) = true := by
  rcases h with h | h <;> simp [isRecent, mkPreview, h, twentyFourHoursMs]

theorem aux_foldl_save2 (now : Int) (outs : List OutRec2) (acc : List FoodItem)
    (hlen : acc.length ≤ 50)
    (haccF : ∀ x ∈ acc, isRecent now x = true)
    (houts : ∀ o ∈ outs, isRecent now (mkPreview now o) = true) :
    outs.foldl (fun st o => saveResult2 now o st) acc
      = ((outs.map (mkPreview now)).reverse ++ acc).take 50 := by
  induction outs generalizing acc with
  | nil => simp [List.take_of_length_le hlen]
  | cons o os ih =>
    have hfil : filterRecentFoods now acc = acc := by
      simp only [filterRecentFoods]
      exact List.filter_eq_self.mpr haccF
    have hstep : saveResult2 now o acc = (mkPreview now o :: acc).take 50 := by
      simp only [saveResult2, hfil]
    have hnew : ∀ x ∈ (mkPreview now o :: acc).take 50, isRecent now x = true := by
      intro x hx
      rcases List.mem_cons.mp (List.take_subset _ _ hx) with h | h
      · subst h
        exact houts o (List.mem_cons_self _ _)
      · exact haccF x h
    rw [List.foldl_cons, hstep,
      ih ((mkPreview now o :: acc).take 50) (by simp) hnew
        (fun o' ho' => houts o' (List.mem_cons_of_mem _ ho')),
      aux_take_take_append _ _ 50 50 (Nat.le_refl 50)]
    simp [List.append_assoc]

theorem aux_notmem_filter (now : Int) (st : List FoodItem) (r : FoodItem)
    (hr : isRecent now r = false) : r ∉ filterRecentFoods now st := by
  intro hmem
  simp only [filterRecentFoods, List.mem_filter] at hmem
  rw [hr] at hmem
  exact Bool.false_ne_true hmem.2

theorem aux_load_returned (now : Int) (st : List FoodItem) :
    (loadEffect now st).returned = filterRecentFoods now st := by
  simp only [loadEffect]
  split <;> rfl

theorem aux_filter_sub (now : Int) (st : List FoodItem) :
    List.Sublist (filterRecentFoods now st) st := by
  simp only [filterRecentFoods]
  exact List.filter_sublist st

theorem aux_notmem_persisted (now : Int) (st : List FoodItem) (r : FoodItem)
    (hr : isRecent now r = false) : r ∉ (loadEffect now st).persisted := by
  by_cases hlen : (filterRecentFoods now st).length = st.length
  · have heq : filterRecentFoods now st = st := (aux_filter_sub now st).eq_of_length hlen
    have hp : (loadEffect now st).persisted = st := by simp [loadEffect, hlen]
    rw [hp, ← heq]
    exact aux_notmem_filter now st r hr
  · have hp : (loadEffect now st).persisted = filterRecentFoods now st := by
      simp [loadEffect, hlen]
    rw [hp]
    exact aux_notmem_filter now st r hr

theorem aux_load_writes (now : Int) (st : List FoodItem)
    (hne : filterRecentFoods now st ≠ st) :
    (loadEffect now st).wrote = true ∧
    (loadEffect now st).persisted = filterRecentFoods now st := by
  have hlen : ¬(filterRecentFoods now st).length = st.length := fun hlen =>
    hne ((aux_filter_sub now st).eq_of_length hlen)
  constructor <;> simp [loadEffect, hlen]

theorem aux_notmem_save (now : Int) (st : List FoodItem) (r : FoodItem) (item : OutRec2)
    (hr : isRecent now r = false) (hne : r ≠ mkPreview now item) :
    r ∉ saveResult2 now item st := by
  intro hmem
  simp only [saveResult2] at hmem
  rcases List.mem_cons.mp (List.take_subset _ _ hmem) with h | h
  · exact hne h
  · exact aux_notmem_filter now st r hr h

/-! ## Claims -/

/-- C1: under the multipart policy the client POSTs under form field name
"file" first; only when that response is non-2xx does it POST once more under
"image" (and never a third field name); the first 2xx response ends the
attempt sequence and the result records the field name that succeeded. -/
theorem upload_field_fallback (server : String → Resp) :
    (respOk (server "file") = true →
      (uploadToBackend server).attempts = ["file"] ∧
      (uploadToBackend server).outcome =
        .success "file" (server "file").status (parseBody (server "file"))) ∧
    (respOk (server "file") = false →
      (uploadToBackend server).attempts = ["file", "image"] ∧
      (respOk (server "image") = true →
        (uploadToBackend server).outcome =
          .success "image" (server "image").status (parseBody (server "image")))) := by
  constructor
  · intro h1
    simp [uploadToBackend, tryFields, h1]
  · intro h1
    constructor
    · cases h2 : respOk (server "image") <;> simp [uploadToBackend, tryFields, h1, h2]
    · intro h2
      simp [uploadToBackend, tryFields, h1, h2]

/-- C1 witness: a server rejecting "file" with 415 and accepting "image" with
200 yields exactly the two attempts and a result recording "image". -/
theorem upload_field_fallback_witness :
    (uploadToBackend server415).attempts = ["file", "image"] ∧
    (uploadToBackend server415).outcome =
      .success "image" (server415 "image").status (parseBody (server415 "image")) := by
  have h := upload_field_fallback server415
  exact ⟨(h.2 (by decide)).1, (h.2 (by decide)).2 (by decide)⟩

/-- C5: an upload attempt answered 2xx whose body fails JSON decoding still
succeeds, and its body is the rawText fallback built from the raw response
text. -/
theorem upload_rawtext_fallback (server : String → Resp) (f : String)
    (rest : List String) (lastErr : Option (Nat × String))
    (hok : respOk (server f) = true) (hjson : (server f).jsonOk = false) :
    (tryFields server (f :: rest) lastErr).outcome =
      .success f (server f).status (.rawText (server f).text) := by
  simp [tryFields, hok, parseBody, hjson]

/-- C5 witness: a 200 response with non-JSON body "OK" succeeds with the
rawText "OK" body. -/
theorem upload_rawtext_fallback_witness :
    (tryFields serverRaw ["file", "image"] none).outcome =
      .success "file" 200 (.rawText "OK") :=
  (upload_rawtext_fallback serverRaw "file" ["image"] none (by decide) (by decide)).trans
    (by decide)

/-- C6: when both candidate field names receive non-2xx responses the upload
fails carrying the status and body text of the last response observed (the
one for field "image"). -/
theorem upload_total_failure (server : String → Resp)
    (h1 : respOk (server "file") = false) (h2 : respOk (server "image") = false) :
    (uploadToBackend server).outcome =
      .serverError (some ((server "image").status, (server "image").text)) := by
  simp [uploadToBackend, tryFields, h1, h2]

/-- C6 witness: both attempts answered 500 fail with the last (field "image")
status and body. -/
theorem upload_total_failure_witness :
    (uploadToBackend server500).outcome = .serverError (some (500, "err-image")) :=
  (upload_total_failure server500 (by decide) (by decide)).trans (by decide)

/-- C2: for any sequence of saves into an empty store, both store variants
keep the newest-first prefix of length at most 50 of the saved records, and a
subsequent load returns exactly min N 50 records newest-first (for the
windowed variant, with the saves sharing one clock reading so that the time
window prunes nothing). -/
theorem history_cap (items : List OutRec1) (outs : List OutRec2) (now : Int)
    (hfresh : ∀ o ∈ outs, o.whenMs = some now ∨ o.whenMs = none) :
    saveAll1 items = items.reverse.take 50 ∧
    load1 (saveAll1 items) = items.reverse.take 50 ∧
    (load1 (saveAll1 items)).length = min items.length 50 ∧
    saveAll2 now outs = (outs.map (mkPreview now)).reverse.take 50 ∧
    (saveAll2 now outs).length = min outs.length 50 ∧
    (loadEffect now (saveAll2 now outs)).returned = saveAll2 now outs := by
  have h1 : saveAll1 items = items.reverse.take 50 := by
    have h := aux_foldl_cap items ([] : List OutRec1) (by simp)
    simpa [saveAll1, saveResult1] using h
  have hpre : ∀ o ∈ outs, isRecent now (mkPreview now o) = true :=
    fun o ho => aux_isRecent_preview now o (hfresh o ho)
  have h4 : saveAll2 now outs = (outs.map (mkPreview now)).reverse.take 50 := by
    have h := aux_foldl_save2 now outs [] (by simp) (by simp) hpre
    simpa [saveAll2] using h
  have hallfresh : ∀ x ∈ saveAll2 now outs, isRecent now x = true := by
    intro x hx
    rw [h4] at hx
    obtain ⟨o, ho, rfl⟩ :=
      List.mem_map.mp (List.mem_reverse.mp (List.take_subset _ _ hx))
    exact hpre o ho
  have hfil : filterRecentFoods now (saveAll2 now outs) = saveAll2 now outs := by
    simp only [filterRecentFoods]
    exact List.filter_eq_self.mpr hallfresh
  refine ⟨h1, by simpa [load1] using h1, ?_, h4, ?_, ?_⟩
  · simp only [load1]
    rw [h1]
    simp only [List.length_take, List.length_reverse]
    omega
  · rw [h4]
    simp only [List.length_take, List.length_reverse, List.length_map]
    omega
  · simp [loadEffect, hfil]

/-- C2 witness: 51 saves into each store variant leave and load back exactly
50 records. -/
theorem history_cap_witness :
    (load1 (saveAll1 (List.replicate 51 wOut1))).length
        = min (List.replicate 51 wOut1).length 50 ∧
    (saveAll2 0 (List.replicate 51 wOut2)).length
        = min (List.replicate 51 wOut2).length 50 := by
  have h := history_cap (List.replicate 51 wOut1) (List.replicate 51 wOut2) 0 (by decide)
  exact ⟨h.2.2.1, h.2.2.2.2.1⟩

/-- C3 counterexample: saving an upload result whose timestamp is 25 hours
old persists a record that is older than 24 hours — the windowed save prunes
only the previously stored list, never the newly built preview, so the claim
as stated fails for save. -/
theorem history_prune_counterexample :
    isRecent nowStale (mkPreview nowStale oldOut) = false ∧
    mkPreview nowStale oldOut ∈ saveResult2 nowStale oldOut [] := by
  constructor
  · decide
  · decide

/-- C3 (amended): after a load, every record older than 24 hours is absent
from both the returned and the persisted set; load applies the pruning filter
before returning and writes the pruned set back exactly when pruning removed
anything; after a save, every record older than 24 hours other than the newly
built preview is absent from the persisted set (the new preview itself is
persisted regardless of its age; at the only call site its timestamp is the
current time). -/
theorem history_prune (now : Int) (st : List FoodItem) (r : FoodItem) :
    (isRecent now r = false →
      r ∉ (loadEffect now st).returned ∧ r ∉ (loadEffect now st).persisted) ∧
    (loadEffect now st).returned = filterRecentFoods now st ∧
    (filterRecentFoods now st ≠ st →
      (loadEffect now st).wrote = true ∧
      (loadEffect now st).persisted = filterRecentFoods now st) ∧
    (∀ item : OutRec2, isRecent now r = false → r ≠ mkPreview now item →
      r ∉ saveResult2 now item st) := by
  refine ⟨fun hr => ⟨?_, aux_notmem_persisted now st r hr⟩, aux_load_returned now st,
    aux_load_writes now st, fun item hr hne => aux_notmem_save now st r item hr hne⟩
  rw [aux_load_returned]
  exact aux_notmem_filter now st r hr

/-- C3 witness: a 25-hour-old stored record disappears from both the returned
and persisted sets on load. -/
theorem history_prune_witness :
    staleItem ∉ (loadEffect nowStale [staleItem]).returned ∧
    staleItem ∉ (loadEffect nowStale [staleItem]).persisted :=
  (history_prune nowStale [staleItem] staleItem).1 (by decide)

/-- C10: a record without a `when` value is dropped by the pruning filter
regardless of its age: absent from the returned and persisted sets after a
load and from the persisted set after a save, while the preview built by save
always carries a `when` value (the saved item timestamp, defaulting to now). -/
theorem history_no_when (now : Int) (st : List FoodItem) (r : FoodItem)
    (item : OutRec2) (h : r.whenMs = none) :
    r ∉ (loadEffect now st).returned ∧
    r ∉ (loadEffect now st).persisted ∧
    r ∉ saveResult2 now item st ∧
    (mkPreview now item).whenMs = some (item.whenMs.getD now) := by
  have hr : isRecent now r = false := by simp [isRecent, h]
  have hne : r ≠ mkPreview now item := by
    intro he
    have h2 : r.whenMs = some (item.whenMs.getD now) := by rw [he]; rfl
    rw [h] at h2
    exact Option.noConfusion h2
  refine ⟨?_, aux_notmem_persisted now st r hr, aux_notmem_save now st r item hr hne, rfl⟩
  rw [aux_load_returned]
  exact aux_notmem_filter now st r hr

/-- C10 witness: a concrete record with no `when` value is gone after a load
and after a save. -/
theorem history_no_when_witness :
    noWhenItem ∉ (loadEffect 0 [noWhenItem]).returned ∧
    noWhenItem ∉ (loadEffect 0 [noWhenItem]).persisted ∧
    noWhenItem ∉ saveResult2 0 c10Out [noWhenItem] := by
  have h := history_no_when 0 [noWhenItem] noWhenItem c10Out rfl
  exact ⟨h.1, h.2.1, h.2.2.1⟩

/-- C4: the classifier returns non-veg when the lower-cased combined
analysis/labels/name text matches the non-vegetarian patterns (which take
priority), veg when it matches only the vegetarian patterns, and unknown when
it matches neither; on "Contains egg and milk" it returns non-veg, on
"Suitable for vegetarians" veg, and on an empty product unknown. -/
theorem veg_classifier :
    (∀ p : Product, testNonVeg (combinedOf p) = true → detectVegStatus p = "non-veg") ∧
    (∀ p : Product, testNonVeg (combinedOf p) = false → testVeg (combinedOf p) = true →
      detectVegStatus p = "veg") ∧
    (∀ p : Product, testNonVeg (combinedOf p) = false → testVeg (combinedOf p) = false →
      detectVegStatus p = "unknown") ∧
    detectVegStatus ⟨some "Contains egg and milk", none, none, none⟩ = "non-veg" ∧
    detectVegStatus ⟨some "Suitable for vegetarians", none, none, none⟩ = "veg" ∧
    detectVegStatus ⟨none, none, none, none⟩ = "unknown" := by
  refine ⟨fun p h => ?_, fun p h1 h2 => ?_, fun p h1 h2 => ?_,
    by decide, by decide, by decide⟩
  · simp [detectVegStatus, h]
  · simp [detectVegStatus, h1, h2]
  · simp [detectVegStatus, h1, h2]

/-- C4 witness: "Pure Veg" matches only the vegetarian patterns and is
classified veg. -/
theorem veg_classifier_witness : detectVegStatus prodPureVeg = "veg" :=
  veg_classifier.2.1 prodPureVeg (by decide) (by decide)

/-- C7: a nutrition row is rendered only for a present value that does not
coerce to the number 0: a null/absent value or a numeric 0 yields no row, a
non-zero number yields a row pairing the label with the printed value; on the
sugars-0/proteins-5 object the rendered rows are exactly the Protein row. -/
theorem nutrition_row_policy :
    (∀ (n : List (String × NVal)) (lbl k : String),
      jsLookup n k = .vnull → getNutritionRow n lbl k = none) ∧
    (∀ (n : List (String × NVal)) (lbl k : String),
      jsLookup n k = .num 0 → getNutritionRow n lbl k = none) ∧
    (∀ (n : List (String × NVal)) (lbl k : String) (q : Rat),
      jsLookup n k = .num q → q ≠ 0 →
      getNutritionRow n lbl k = some (lbl, ratDisplay q)) ∧
    nutritionRows sampleNutrition = [("Protein (g)", "5")] := by
  refine ⟨fun n lbl k h => ?_, fun n lbl k h => ?_, fun n lbl k q h hq => ?_, by decide⟩
  · simp [getNutritionRow, h]
  · simp [getNutritionRow, h, numberOf]
  · simp [getNutritionRow, h, numberOf, displayStr, hq]

/-- C7 witness: in the sugars-0/proteins-5 object the Sugar row is suppressed
and the Protein row is rendered. -/
theorem nutrition_row_policy_witness :
    getNutritionRow sampleNutrition "Sugar (g)" "sugars" = none ∧
    getNutritionRow sampleNutrition "Protein (g)" "proteins"
      = some ("Protein (g)", ratDisplay 5) :=
  ⟨nutrition_row_policy.2.1 sampleNutrition "Sugar (g)" "sugars" (by decide),
   nutrition_row_policy.2.2.1 sampleNutrition "Protein (g)" "proteins" 5 (by decide)
     (by norm_num)⟩

/-- C8: whenever the image manipulator throws, both prepareImage variants
return the original image (its URI wrapped unchanged) instead of propagating
the failure. -/
theorem prepare_fallback (manip : String → Except String ManipImage) (uri e : String)
    (h : manip uri = .error e) :
    prepareImage manip uri = { uri := uri, width := none, height := none } ∧
    (uri ≠ "" →
      prepareImage3 manip uri = some { uri := uri, width := none, height := none }) := by
  constructor
  · simp [prepareImage, h]
  · intro hu
    simp [prepareImage3, hu, h]

/-- C8 witness: a throwing manipulator leaves a concrete URI untouched in
both variants. -/
theorem prepare_fallback_witness :
    prepareImage manipFail "file:///photo.jpg"
        = { uri := "file:///photo.jpg", width := none, height := none } ∧
    prepareImage3 manipFail "file:///photo.jpg"
        = some { uri := "file:///photo.jpg", width := none, height := none } := by
  have h := prepare_fallback manipFail "file:///photo.jpg" "manipulation failed" rfl
  exact ⟨h.1, h.2 (by decide)⟩

/-- C9: a picker result with a non-empty asset list normalizes to exactly one
image record built from the first asset (whatever optional fields the asset is
missing); a single-object result with a truthy uri normalizes to a record
copying uri/width/height; in particular the function is total on results with
missing optional fields. -/
theorem picker_normalization :
    (∀ (r : PickerRes) (a : Asset) (rest : List Asset),
      r.assets = some (a :: rest) →
      normalizePickerResult (some r) = some (capturedFromAsset a)) ∧
    (∀ r : PickerRes, (r.assets = none ∨ r.assets = some []) → truthyS r.uri = true →
      normalizePickerResult (some r)
        = some { uri := r.uri, width := r.width, height := r.height
               , fileName := none, mimeType := none }) ∧
    (∀ a : Asset, (normalizePickerResult
        (some { assets := some [a], uri := none, width := none, height := none })).isSome
          = true) := by
  refine ⟨fun r a rest h => ?_, fun r h hu => ?_, fun a => ?_⟩
  · simp [normalizePickerResult, h]
  · rcases h with h | h <;> simp [normalizePickerResult, h, hu]
  · simp [normalizePickerResult]

/-- C9 witness: an asset with only a uri normalizes to a record with the file
name and MIME type derived from the uri. -/
theorem picker_normalization_witness :
    normalizePickerResult (some pickerSample)
      = some { uri := some "a/b.png", width := none, height := none
             , fileName := some "b.png", mimeType := some "image/png" } :=
  (picker_normalization.1 pickerSample assetSample [] rfl).trans (by decide)

end PulseApp
